import Mathlib

/-!
A shallow embedding of the dataset and cross-validation layer in
`suite/data_wrapper.py` (classes `DrugResponseDataset` and `FeatureDataset`),
together with proofs about its behaviour.

Conventions of the embedding:
* numeric feature/response values are rationals (`ℚ`);
* Python dictionaries are association lists in insertion order;
* fallible code returns `Except`; a Python statement that raises
  `UnboundLocalError` or `IndexError` is modelled by the corresponding
  error value;
* in-place mutation is modelled by returning the updated object.
-/

namespace Dreval

set_option linter.unusedVariables false

/-- One cross-validation fold descriptor: the dictionaries produced by the
splitter hold a training, a validation and a test list of record indices. -/
structure Fold where
  train : List Nat
  validation : List Nat
  test : List Nat
deriving DecidableEq

/-- A deterministic linear congruential step, the seed-to-seed function of the
pseudo-random source used by the modelled splitter.  Any reproducible
pseudo-random source fits the spec; this one is explicit and computable. -/
def lcg (s : Nat) : Nat := (1103515245 * s + 12345) % 2147483648

/-- Fisher–Yates style seeded shuffle, driven by `fuel` (which callers set to
the list length, so the fuel never runs out). -/
def shuffleGo : Nat → Nat → List Nat → List Nat
  | 0, _, _ => []
  | fuel + 1, s, l =>
    if h : l = [] then []
    else
      l.get ⟨s % l.length, Nat.mod_lt _ (List.length_pos.mpr h)⟩ ::
        shuffleGo fuel (lcg s) (l.eraseIdx (s % l.length))

/-- Reproducible shuffle of a list, seeded by `s`. -/
def shuffle (s : Nat) (l : List Nat) : List Nat := shuffleGo l.length s l

/-- Bucket sizes for splitting `n` records into `k` folds: each step takes the
ceiling of `remaining records / remaining folds`, so sizes differ by at most
one and sum to `n` (for `0 < k`). -/
def foldSizes : Nat → Nat → List Nat
  | 0, _ => []
  | k + 1, n => (n + k) / (k + 1) :: foldSizes k (n - (n + k) / (k + 1))

/-- Cut a list into consecutive chunks of the given sizes. -/
def chunk : List Nat → List Nat → List (List Nat)
  | [], _ => []
  | n :: ns, l => l.take n :: chunk ns (l.drop n)

/-- The `k` buckets of record indices for `N` records: the index range is
shuffled reproducibly from the seed and cut into chunks of the computed
sizes. -/
def lpoBuckets (k N s : Nat) : List (List Nat) :=
  chunk (foldSizes k N) (shuffle s (List.range N))

/-- Fold `i` of the split: its test set is bucket `i`; its training pool is
the union (concatenation) of all other buckets; with validation splitting, a
reproducible subsample of the pool of size
`round(validation_ratio × |pool|)` becomes the validation set and is removed
from the training set. -/
def lpoFold (buckets : List (List Nat)) (split_validation : Bool)
    ( validation_ratio : ℚ) (random_state i : Nat) : Fold :=
  let test := buckets.getD i []
  let pool := (buckets.eraseIdx i).flatten
  let m := if split_validation
    then (round ( validation_ratio * (pool.length : ℚ))).toNat else 0
  let pl := if split_validation then shuffle (lcg (random_state + i)) pool else pool
  { train := pl.drop m, validation := pl.take m, test := test }

/-- Modelled from the spec: `leave_pair_out_cv` is imported by
`suite/data_wrapper.py` from `suite/utils.py`, a file that is not among the
provided sources.  Per spec §4.3, given `N` records and `k` folds it assigns
each record index to one of `k` buckets by a reproducible shuffle-then-chunk
procedure seeded by `random_state` (bucket sizes differing by at most one);
fold `i` has test set bucket `i` and training pool the union of the other
buckets; when validation splitting is requested, a reproducible random
subsample of the training pool of size `round(validation_ratio × |pool|)`
becomes the validation set and is removed from the training set. -/
def leave_pair_out_cv (n_cv_splits : Nat) (response : List ℚ)
    (cell_line_ids drug_ids : List String) (split_validation : Bool)
    ( validation_ratio : ℚ) (random_state : Nat) : List Fold :=
  (List.range n_cv_splits).map
    (lpoFold (lpoBuckets n_cv_splits response.length random_state)
      split_validation validation_ratio random_state)

/-- Drug response dataset: aligned arrays of response values, cell line ids
and drug ids, plus the optional `predictions` and `cv_splits` fields. -/
structure DrugResponseDataset where
  target_type : String
  response : List ℚ
  cell_line_ids : List String
  drug_ids : List String
  predictions : Option (List ℚ)
  cv_splits : Option (List Fold)
deriving DecidableEq

/-- Embeds `DrugResponseDataset.__init__` (lines 33–60): it stores the four arguments
verbatim and sets `predictions` to `None`.  The source performs no length
comparison of the three sequences, so construction never fails. -/
def DrugResponseDataset.init (target_type : String) (response : List ℚ)
    (cell_line_ids drug_ids : List String) : DrugResponseDataset :=
  { target_type := target_type
    response := response
    cell_line_ids := cell_line_ids
    drug_ids := drug_ids
    predictions := none
    cv_splits := none }

/-- Errors that `split_dataset` can raise.  `invalidArgument` is never
produced by the source; the constructor exists so that statements about an
`InvalidArgument` failure can be expressed and compared with what the code
actually does. -/
inductive SplitError where
  | notImplemented (msg : String)
  | unboundLocal (var : String)
  | invalidArgument (msg : String)
deriving DecidableEq

/-- Whether a `SplitError` is the `InvalidArgument` error. -/
def SplitError.isInvalidArgument : SplitError → Bool
  | .invalidArgument _ => true
  | _ => false

/-- Embeds `DrugResponseDataset.split_dataset` (lines 74–110).  On `"LPO"` it runs
`leave_pair_out_cv`, caches the result in `cv_splits` and returns it; on
`"LCO"`/`"LDO"` it raises `NotImplementedError` before any assignment; on any
other mode control falls through every branch and the final statement
`self.cv_splits = cv_splits` reads the never-assigned local `cv_splits`,
raising `UnboundLocalError`.  The pair returned here is (object state after
the call, outcome). -/
def DrugResponseDataset.split_dataset (self : DrugResponseDataset)
    (n_cv_splits : Nat) (mode : String) (split_validation : Bool)
    ( validation_ratio : ℚ) (random_state : Nat) :
    DrugResponseDataset × Except SplitError (List Fold) :=
  if mode = "LPO" then
    let cv := leave_pair_out_cv n_cv_splits self.response self.cell_line_ids
      self.drug_ids split_validation validation_ratio random_state
    ({ self with cv_splits := some cv }, .ok cv)
  else if mode = "LCO" then
    (self, .error (.notImplemented "LCO split mode not implemented"))
  else if mode = "LDO" then
    (self, .error (.notImplemented "LDO split mode not implemented"))
  else
    (self, .error (.unboundLocal "cv_splits"))

/-- A feature map of one entity: view name ↦ feature vector. -/
abbrev FeatureMap := List (String × List ℚ)

/-- The `features` dictionary: entity id ↦ feature map. -/
abbrev Features := List (String × FeatureMap)

/-- Errors arising in the `FeatureDataset` methods. -/
inductive FdError where
  | indexError
  | unboundLocal (var : String)
  | missingEntity (id : String)
  | missingView (view : String)
  | stackEmpty
deriving DecidableEq

/-- Feature dataset: the `features` mapping plus the two fields derived from
it at construction time. -/
structure FeatureDataset where
  features : Features
  view_names : List String
  identifier : List String
deriving DecidableEq

/-- Embeds `FeatureDataset.get_view_names` (lines 214–218): it indexes the list of
keys at position 0 — an `IndexError` on an empty mapping — and returns the
view keys of that first entity only, consulting no other entity. -/
def get_view_names (features : Features) : Except FdError (List String) :=
  match features with
  | [] => .error .indexError
  | (_, fm) :: _ => .ok (fm.map Prod.fst)

/-- Embeds `FeatureDataset.get_ids` (lines 208–212): the list of entity keys. -/
def get_ids (features : Features) : List String := features.map Prod.fst

/-- Embeds `FeatureDataset.__init__` (lines 118–126): stores `features` and derives
`view_names` (via `get_view_names`, which fails on an empty mapping) and
`identifier`. -/
def FeatureDataset.init (features : Features) : Except FdError FeatureDataset :=
  match get_view_names features with
  | .error e => .error e
  | .ok vn => .ok { features := features, view_names := vn, identifier := get_ids features }

/-- Embeds `FeatureDataset.randomize_features` (lines 141–186).  Its first statement,
`if isinstance(views, str)` (line 149), reads the local variable `views`,
which is assigned only later (line 150) and therefore unbound at that point:
Python raises `UnboundLocalError` before any mode branch can run, for every
input.  (The parameter is named `views_to_randomize`; `views` is a distinct,
never-initialised local.) -/
def FeatureDataset.randomize_features (self : FeatureDataset)
    (views_to_randomize : List String) (mode : String) :
    Except FdError FeatureDataset :=
  .error (.unboundLocal "views")

/-- The row list built by the comprehension in `get_feature_matrix`
(line 228): for each identifier in order, `self.features[identifier][view]`;
the first failing lookup raises (`KeyError` on the entity dictionary when the
identifier is absent, `KeyError` on the view dictionary when the view is
absent for that identifier). -/
def gatherRows (features : Features) (view : String) :
    List String → Except FdError (List (List ℚ))
  | [] => .ok []
  | i :: rest =>
    match features.lookup i with
    | none => .error (.missingEntity i)
    | some fm =>
      match fm.lookup view with
      | none => .error (.missingView view)
      | some v =>
        match gatherRows features view rest with
        | .error e => .error e
        | .ok rows => .ok (v :: rows)

/-- Embeds `FeatureDataset.get_feature_matrix` (lines 220–228): builds the row list
and stacks it; `np.stack` of an empty list raises `ValueError` ("need at
least one array to stack"), modelled as `stackEmpty`. -/
def FeatureDataset.get_feature_matrix (self : FeatureDataset) (view : String)
    (identifiers : List String) : Except FdError (List (List ℚ)) :=
  match gatherRows self.features view identifiers with
  | .error e => .error e
  | .ok [] => .error .stackEmpty
  | .ok rows => .ok rows

/-- Whether `features[i][view]` succeeds for identifier `i`. -/
def hasRow (features : Features) (view i : String) : Bool :=
  match features.lookup i with
  | none => false
  | some fm => (fm.lookup view).isSome

/-- The stored vector `features[i][view]` (defaulting to `[]`, only ever used
where `hasRow` holds). -/
def rowOf (features : Features) (view i : String) : List ℚ :=
  (((features.lookup i).getD []).lookup view).getD []

/-- A small concrete drug response dataset used to instantiate theorems. -/
def dsA : DrugResponseDataset :=
  DrugResponseDataset.init "IC50" [1, 2, 3, 4, 5]
    ["c1", "c2", "c3", "c4", "c5"] ["d1", "d2", "d3", "d4", "d5"]

/-- A concrete feature dataset whose entity `"a"` lacks view `"v"`, while
identifier `"b"` is absent from the mapping altogether. -/
def fdMixed : FeatureDataset :=
  { features := [("a", [("w", [5])])], view_names := ["w"], identifier := ["a"] }

/-- A concrete well-formed feature dataset. -/
def fdOk : FeatureDataset :=
  { features := [("a", [("v", [1, 2])]), ("b", [("v", [3, 4])])]
    view_names := ["v"], identifier := ["a", "b"] }

/-! ## Helper lemmas for `get_feature_matrix` -/

theorem gatherRows_ok (features : Features) (view : String) :
    ∀ ids, (∀ i ∈ ids, hasRow features view i = true) →
      gatherRows features view ids = .ok (ids.map (rowOf features view)) := by
  intro ids
  induction ids with
  | nil => intro _; rfl
  | cons a t ih =>
    intro h
    have ha := h a (List.mem_cons_self a t)
    unfold gatherRows
    cases hfa : features.lookup a with
    | none => simp [hasRow, hfa] at ha
    | some fm =>
      cases hv : fm.lookup view with
      | none => simp [hasRow, hfa, hv] at ha
      | some v =>
        rw [ih (fun i hi => h i (List.mem_cons_of_mem _ hi))]
        simp [rowOf, hfa, hv]

theorem gatherRows_append (features : Features) (view : String) (pre : List String)
    (hpre : ∀ i ∈ pre, hasRow features view i = true) (t : List String) :
    gatherRows features view (pre ++ t) =
      match gatherRows features view t with
      | .error e => .error e
      | .ok rows => .ok (pre.map (rowOf features view) ++ rows) := by
  induction pre with
  | nil =>
    simp only [List.nil_append, List.map_nil]
    cases gatherRows features view t <;> rfl
  | cons a p ih =>
    have ha := hpre a (List.mem_cons_self a p)
    have hp : ∀ i ∈ p, hasRow features view i = true :=
      fun i hi => hpre i (List.mem_cons_of_mem _ hi)
    cases hfa : features.lookup a with
    | none => simp [hasRow, hfa] at ha
    | some fm =>
      cases hv : fm.lookup view with
      | none => simp [hasRow, hfa, hv] at ha
      | some v =>
        simp only [List.cons_append]
        simp only [gatherRows, hfa, hv, ih hp]
        cases gatherRows features view t <;> simp [rowOf, hfa, hv]

/-! ## Helper lemmas for the splitter -/

theorem cons_get_eraseIdx_perm (l : List Nat) :
    ∀ (i : Nat) (h : i < l.length), List.Perm (l.get ⟨i, h⟩ :: l.eraseIdx i) l := by
  induction l with
  | nil => intro i h; simp at h
  | cons a t ih =>
    intro i h
    cases i with
    | zero => simp [List.eraseIdx]
    | succ j =>
      have hj : j < t.length := by simpa using h
      simp only [List.get_cons_succ, List.eraseIdx_cons_succ]
      exact (List.Perm.swap a (t.get ⟨j, hj⟩) (t.eraseIdx j)).trans
        ((ih j hj).cons a)

theorem shuffleGo_perm : ∀ (fuel s : Nat) (l : List Nat), l.length ≤ fuel →
    List.Perm (shuffleGo fuel s l) l := by
  intro fuel
  induction fuel with
  | zero =>
    intro s l h
    have hl : l = [] := List.length_eq_zero.mp (Nat.le_zero.mp h)
    simp [hl, shuffleGo]
  | succ n ih =>
    intro s l h
    by_cases hl : l = []
    · simp [hl, shuffleGo]
    · have hi : s % l.length < l.length := Nat.mod_lt _ (List.length_pos.mpr hl)
      have hlen : (l.eraseIdx (s % l.length)).length ≤ n := by
        rw [List.length_eraseIdx, if_pos hi]
        omega
      rw [shuffleGo, dif_neg hl]
      exact ((ih (lcg s) _ hlen).cons _).trans (cons_get_eraseIdx_perm l _ hi)

theorem shuffle_perm (s : Nat) (l : List Nat) : List.Perm (shuffle s l) l :=
  shuffleGo_perm l.length s l (Nat.le_refl _)

theorem foldSizes_length : ∀ (k n : Nat), (foldSizes k n).length = k := by
  intro k
  induction k with
  | zero => intro n; rfl
  | succ m ih => intro n; simp [foldSizes, ih]

theorem foldSizes_head_le (k n : Nat) : (n + k) / (k + 1) ≤ n := by
  rw [Nat.div_le_iff_le_mul_add_pred (Nat.succ_pos k)]
  have h1 : n ≤ (k + 1) * n := Nat.le_mul_of_pos_left n (Nat.succ_pos k)
  have h2 : k + 1 - 1 = k := rfl
  rw [h2]
  exact Nat.add_le_add_right h1 k

theorem foldSizes_sum : ∀ (k n : Nat), 0 < k → (foldSizes k n).sum = n := by
  intro k
  induction k with
  | zero => intro n h; exact absurd h (lt_irrefl 0)
  | succ m ih =>
    intro n _
    cases m with
    | zero => simp [foldSizes]
    | succ p =>
      have hle := foldSizes_head_le (p + 1) n
      show ((n + (p + 1)) / (p + 1 + 1) ::
        foldSizes (p + 1) (n - (n + (p + 1)) / (p + 1 + 1))).sum = n
      rw [List.sum_cons, ih _ (Nat.succ_pos p)]
      omega

theorem chunk_length : ∀ (ns l : List Nat), (chunk ns l).length = ns.length := by
  intro ns
  induction ns with
  | nil => intro l; rfl
  | cons n t ih => intro l; simp [chunk, ih]

theorem chunk_flatten : ∀ (ns l : List Nat), l.length ≤ ns.sum →
    (chunk ns l).flatten = l := by
  intro ns
  induction ns with
  | nil =>
    intro l h
    have hl : l = [] := List.length_eq_zero.mp (Nat.le_zero.mp (by simpa using h))
    simp [hl, chunk]
  | cons n t ih =>
    intro l h
    have hdrop : (l.drop n).length ≤ t.sum := by
      rw [List.length_drop]
      simp only [List.sum_cons] at h
      omega
    simp only [chunk, List.flatten_cons]
    rw [ih _ hdrop, List.take_append_drop]

theorem flatten_sublist_of_sublist {L1 L2 : List (List Nat)}
    (h : L1.Sublist L2) : L1.flatten.Sublist L2.flatten := by
  induction h with
  | slnil => exact List.Sublist.refl _
  | cons a _ ih =>
    rw [List.flatten_cons]
    exact ih.trans (List.sublist_append_right a _)
  | cons₂ a _ ih =>
    simpa only [List.flatten_cons] using ih.append_left a

theorem eraseIdx_flatten_not_mem (L : List (List Nat)) :
    ∀ (i : Nat) (hi : i < L.length), L.flatten.Nodup →
      ∀ x ∈ (L.eraseIdx i).flatten, x ∉ L.get ⟨i, hi⟩ := by
  induction L with
  | nil => intro i hi; simp at hi
  | cons a t ih =>
    intro i hi hn x hx
    rw [List.flatten_cons, List.nodup_append] at hn
    obtain ⟨hna, hnt, hdisj⟩ := hn
    cases i with
    | zero =>
      intro hmem
      exact hdisj hmem (by simpa [List.eraseIdx] using hx)
    | succ j =>
      have hj : j < t.length := by simpa using hi
      simp only [List.eraseIdx_cons_succ, List.flatten_cons, List.mem_append] at hx
      intro hmem
      cases hx with
      | inl hxa =>
        exact hdisj hxa
          (List.mem_flatten.mpr ⟨t.get ⟨j, hj⟩, List.get_mem t j hj, hmem⟩)
      | inr hxe => exact ih j hj hnt x hxe hmem

theorem lpoBuckets_length (k N s : Nat) : (lpoBuckets k N s).length = k := by
  rw [lpoBuckets, chunk_length, foldSizes_length]

theorem lpoBuckets_flatten_eq (k N s : Nat) (hk : 0 < k) :
    (lpoBuckets k N s).flatten = shuffle s (List.range N) := by
  rw [lpoBuckets, chunk_flatten]
  rw [foldSizes_sum _ _ hk, (shuffle_perm s (List.range N)).length_eq,
    List.length_range]

theorem lpoBuckets_flatten_perm (k N s : Nat) (hk : 0 < k) :
    List.Perm (lpoBuckets k N s).flatten (List.range N) := by
  rw [lpoBuckets_flatten_eq k N s hk]
  exact shuffle_perm s (List.range N)

theorem lpoBuckets_flatten_nodup (k N s : Nat) (hk : 0 < k) :
    (lpoBuckets k N s).flatten.Nodup :=
  ((lpoBuckets_flatten_perm k N s hk).nodup_iff).mpr (List.nodup_range N)

/-! ## Theorems for the claims about construction, mode dispatch and the
`FeatureDataset` methods -/

theorem lpoFold_test (B : List (List Nat)) (sv : Bool) ( vr : ℚ) (s i : Nat) :
    (lpoFold B sv vr s i).test = B.getD i [] := rfl

/-- C1: with `0 < k` splits, the LPO splitter returns `k` fold descriptors
whose test index sets are pairwise disjoint and whose union is exactly the
full record index set `{0..N-1}`. -/
theorem leave_pair_out_cv_partition (k : Nat) (response : List ℚ)
    (cell_line_ids drug_ids : List String) (split_validation : Bool)
    ( vr : ℚ) (random_state : Nat) (hk : 0 < k) :
    ∀ folds, folds = leave_pair_out_cv k response cell_line_ids drug_ids
        split_validation vr random_state →
      folds.length = k ∧
      List.Pairwise (fun f g => ∀ x, x ∈ f.test → x ∉ g.test) folds ∧
      (∀ x, (∃ f ∈ folds, x ∈ f.test) ↔ x < response.length) := by
  intro folds hfolds
  subst hfolds
  rw [leave_pair_out_cv]
  set B := lpoBuckets k response.length random_state with hBdef
  have hBlen : B.length = k := lpoBuckets_length _ _ _
  have hnd : B.flatten.Nodup := lpoBuckets_flatten_nodup _ _ _ hk
  have hperm : List.Perm B.flatten (List.range response.length) :=
    lpoBuckets_flatten_perm _ _ _ hk
  refine ⟨by rw [List.length_map, List.length_range], ?_, ?_⟩
  · rw [List.pairwise_map, List.pairwise_iff_getElem]
    intro i j hi hj hij
    rw [List.length_range] at hi hj
    simp only [List.getElem_range]
    intro x hxi hxj
    rw [lpoFold_test, List.getD_eq_getElem B [] (by rw [hBlen]; exact hi)] at hxi
    rw [lpoFold_test, List.getD_eq_getElem B [] (by rw [hBlen]; exact hj)] at hxj
    have hpd : List.Pairwise List.Disjoint B := (List.nodup_flatten.mp hnd).2
    exact (List.pairwise_iff_getElem.mp hpd i j _ _ hij) hxi hxj
  · intro x
    constructor
    · rintro ⟨f, hf, hxf⟩
      obtain ⟨i, hi, rfl⟩ := List.mem_map.mp hf
      rw [List.mem_range] at hi
      rw [lpoFold_test, List.getD_eq_getElem B [] (by rw [hBlen]; exact hi)] at hxf
      have hmem : x ∈ B.flatten :=
        List.mem_flatten.mpr ⟨_, List.getElem_mem _, hxf⟩
      exact List.mem_range.mp (hperm.mem_iff.mp hmem)
    · intro hx
      have hmem : x ∈ B.flatten := hperm.mem_iff.mpr (List.mem_range.mpr hx)
      obtain ⟨l, hl, hxl⟩ := List.mem_flatten.mp hmem
      obtain ⟨i, hiB, rfl⟩ := List.mem_iff_getElem.mp hl
      refine ⟨lpoFold B split_validation vr random_state i,
        List.mem_map.mpr ⟨i, List.mem_range.mpr (by rw [hBlen] at hiB; exact hiB), rfl⟩, ?_⟩
      rw [lpoFold_test, List.getD_eq_getElem B [] hiB]
      exact hxl

/-- Witness for C1 at a concrete dataset of five records and two folds. -/
theorem leave_pair_out_cv_partition_w :
    0 < 2 ∧
    (∀ folds, folds = leave_pair_out_cv 2 [1, 2, 3, 4, 5] ["c1", "c2", "c3", "c4", "c5"]
        ["d1", "d2", "d3", "d4", "d5"] true (1 / 10) 42 →
      folds.length = 2 ∧
      List.Pairwise (fun f g => ∀ x, x ∈ f.test → x ∉ g.test) folds ∧
      (∀ x, (∃ f ∈ folds, x ∈ f.test) ↔ x < (5 : Nat))) :=
  ⟨by decide,
    leave_pair_out_cv_partition 2 [1, 2, 3, 4, 5] ["c1", "c2", "c3", "c4", "c5"]
      ["d1", "d2", "d3", "d4", "d5"] true (1 / 10) 42 (by decide)⟩

/-- C2: with validation splitting on and `0 ≤ r ≤ 1`, the validation set of each fold
set has size `round(r × |training pool|)` (the pool being its train and
validation records together), and is disjoint from both the test set of the fold
and its train set. -/
theorem leave_pair_out_cv_validation (k : Nat) (response : List ℚ)
    (cell_line_ids drug_ids : List String) ( vr : ℚ) (random_state : Nat)
    (hk : 0 < k) (h0 : 0 ≤ vr) (h1 : vr ≤ 1) :
    ∀ f ∈ leave_pair_out_cv k response cell_line_ids drug_ids true vr random_state,
      ((f.validation.length : ℤ) =
        round ( vr * ((f.train.length + f.validation.length : Nat) : ℚ))) ∧
      (∀ x ∈ f.validation, x ∉ f.test) ∧
      (∀ x ∈ f.validation, x ∉ f.train) := by
  intro f hf
  rw [leave_pair_out_cv] at hf
  obtain ⟨i, hik, rfl⟩ := List.mem_map.mp hf
  rw [List.mem_range] at hik
  set B := lpoBuckets k response.length random_state with hBdef
  have hBlen : B.length = k := lpoBuckets_length _ _ _
  have hnd : B.flatten.Nodup := lpoBuckets_flatten_nodup _ _ _ hk
  set pool := (B.eraseIdx i).flatten with hpooldef
  set pl := shuffle (lcg (random_state + i)) pool with hpldef
  set m := (round ( vr * (pool.length : ℚ))).toNat with hmdef
  have hfold_val : (lpoFold B true vr random_state i).validation = pl.take m := rfl
  have hfold_train : (lpoFold B true vr random_state i).train = pl.drop m := rfl
  have hplperm : List.Perm pl pool := shuffle_perm _ _
  have hpllen : pl.length = pool.length := hplperm.length_eq
  have hpoolnd : pool.Nodup :=
    List.Nodup.sublist (flatten_sublist_of_sublist (List.eraseIdx_sublist B i)) hnd
  have hplnd : pl.Nodup := hplperm.nodup_iff.mpr hpoolnd
  have hcast : vr * (pool.length : ℚ) ≤ ((pool.length : ℚ)) := by
    calc vr * (pool.length : ℚ) ≤ 1 * (pool.length : ℚ) :=
          mul_le_mul_of_nonneg_right h1 (Nat.cast_nonneg _)
      _ = (pool.length : ℚ) := one_mul _
  have hround_le : round ( vr * (pool.length : ℚ)) ≤ (pool.length : ℤ) := by
    rw [round_eq]
    calc ⌊ vr * (pool.length : ℚ) + 1 / 2⌋ ≤ ⌊(pool.length : ℚ) + 1 / 2⌋ :=
          Int.floor_le_floor (add_le_add_right hcast _)
      _ = round ((pool.length : ℚ)) := (round_eq _).symm
      _ = (pool.length : ℤ) := round_natCast _
  have hround_nonneg : 0 ≤ round ( vr * (pool.length : ℚ)) := by
    rw [round_eq]
    apply Int.floor_nonneg.mpr
    have hge : 0 ≤ vr * (pool.length : ℚ) := mul_nonneg h0 (Nat.cast_nonneg _)
    linarith
  have hm_le : m ≤ pool.length := by
    rw [hmdef]
    exact Int.toNat_le.mpr hround_le
  refine ⟨?_, ?_, ?_⟩
  · have hval_len : (pl.take m).length = m := by rw [List.length_take]; omega
    have htrain_len : (pl.drop m).length = pool.length - m := by
      rw [List.length_drop]; omega
    rw [hfold_val, hfold_train, hval_len, htrain_len]
    have hsum : pool.length - m + m = pool.length := by omega
    rw [hsum, hmdef]
    exact Int.toNat_of_nonneg hround_nonneg
  · intro x hx
    rw [hfold_val] at hx
    rw [lpoFold_test]
    have hxpool : x ∈ pool := hplperm.mem_iff.mp (List.take_subset m pl hx)
    have hiB : i < B.length := by rw [hBlen]; exact hik
    have hnot := eraseIdx_flatten_not_mem B i hiB hnd x hxpool
    rw [List.get_eq_getElem] at hnot
    rw [List.getD_eq_getElem B [] hiB]
    exact hnot
  · intro x hx
    rw [hfold_val] at hx
    rw [hfold_train]
    intro hxt
    have hsplit := hplnd
    rw [← List.take_append_drop m pl, List.nodup_append] at hsplit
    exact hsplit.2.2 hx hxt

/-- Witness for C2 at a concrete dataset of five records, two folds and
ratio 1/2. -/
theorem leave_pair_out_cv_validation_w :
    0 < 2 ∧ (0 : ℚ) ≤ 1 / 2 ∧ (1 / 2 : ℚ) ≤ 1 ∧
    (∀ f ∈ leave_pair_out_cv 2 [1, 2, 3, 4, 5] ["c1", "c2", "c3", "c4", "c5"]
        ["d1", "d2", "d3", "d4", "d5"] true (1 / 2) 42,
      ((f.validation.length : ℤ) =
        round ((1 / 2 : ℚ) * ((f.train.length + f.validation.length : Nat) : ℚ))) ∧
      (∀ x ∈ f.validation, x ∉ f.test) ∧
      (∀ x ∈ f.validation, x ∉ f.train)) :=
  ⟨by decide, by norm_num, by norm_num,
    leave_pair_out_cv_validation 2 [1, 2, 3, 4, 5] ["c1", "c2", "c3", "c4", "c5"]
      ["d1", "d2", "d3", "d4", "d5"] (1 / 2) 42 (by decide) (by norm_num) (by norm_num)⟩

/-- C3: two runs of `split_dataset` in mode `"LPO"` with identical splitting
parameters, on datasets whose three record arrays agree, produce identical
fold sequences — the splitter is a pure function of its arguments and the
explicit `random_state`, with no hidden randomness. -/
theorem split_dataset_deterministic (d1 d2 : DrugResponseDataset) (k : Nat)
    (sv : Bool) ( vr : ℚ) (s : Nat)
    (h1 : d1.response = d2.response) (h2 : d1.cell_line_ids = d2.cell_line_ids)
    (h3 : d1.drug_ids = d2.drug_ids) :
    (d1.split_dataset k "LPO" sv vr s).2 = (d2.split_dataset k "LPO" sv vr s).2 := by
  simp [DrugResponseDataset.split_dataset, h1, h2, h3]

/-- Witness for C3: a repeated run on the concrete dataset `dsA`. -/
theorem split_dataset_deterministic_w :
    dsA.response = dsA.response ∧ dsA.cell_line_ids = dsA.cell_line_ids ∧
    dsA.drug_ids = dsA.drug_ids ∧
    (dsA.split_dataset 2 "LPO" true (1 / 10) 7).2 =
      (dsA.split_dataset 2 "LPO" true (1 / 10) 7).2 :=
  ⟨rfl, rfl, rfl, split_dataset_deterministic dsA dsA 2 true (1 / 10) 7 rfl rfl rfl⟩

/-- C4 counterexample: constructing a `DrugResponseDataset` with sequences of
lengths 1, 2 and 3 succeeds and stores them as given — no `ShapeMismatch`
check exists in `__init__` (lines 33–60). -/
theorem drd_init_no_length_check_cex :
    (DrugResponseDataset.init "IC50" [0] ["a", "b"] ["x", "y", "z"]).response.length = 1 ∧
    (DrugResponseDataset.init "IC50" [0] ["a", "b"] ["x", "y", "z"]).cell_line_ids.length = 2 ∧
    (DrugResponseDataset.init "IC50" [0] ["a", "b"] ["x", "y", "z"]).drug_ids.length = 3 :=
  ⟨rfl, rfl, rfl⟩

/-- C4 (amended): the `DrugResponseDataset` constructor performs no length
validation; it always succeeds, storing the three sequences verbatim, so
mismatched lengths are silently accepted. -/
theorem drd_init_stores_fields (t : String) (r : List ℚ) (c d : List String) :
    (DrugResponseDataset.init t r c d).response = r ∧
    (DrugResponseDataset.init t r c d).cell_line_ids = c ∧
    (DrugResponseDataset.init t r c d).drug_ids = d :=
  ⟨rfl, rfl, rfl⟩

/-- C5 counterexample: at mode `"grouped"`, `split_dataset` fails with the
`UnboundLocalError` on `cv_splits` (the fall-through of lines 92–110), which
is not an `InvalidArgument` error. -/
theorem split_dataset_unknown_mode_cex :
    (dsA.split_dataset 3 "grouped" true (1 / 10) 42).2 =
      Except.error (SplitError.unboundLocal "cv_splits") ∧
    (SplitError.unboundLocal "cv_splits").isInvalidArgument = false :=
  ⟨rfl, rfl⟩

/-- C5 (amended): for every mode outside `{LPO, LCO, LDO}`, `split_dataset`
fails — but with an `UnboundLocalError` on the never-assigned local
`cv_splits`, not with `InvalidArgument`. -/
theorem split_dataset_unknown_mode (self : DrugResponseDataset) (k : Nat)
    (sv : Bool) ( vr : ℚ) (s : Nat) (mode : String)
    (h1 : mode ≠ "LPO") (h2 : mode ≠ "LCO") (h3 : mode ≠ "LDO") :
    self.split_dataset k mode sv vr s =
      (self, .error (.unboundLocal "cv_splits")) := by
  simp [DrugResponseDataset.split_dataset, h1, h2, h3]

/-- Witness for C5 (amended), at mode `"grouped"`. -/
theorem split_dataset_unknown_mode_w :
    ("grouped" : String) ≠ "LPO" ∧ ("grouped" : String) ≠ "LCO" ∧
    ("grouped" : String) ≠ "LDO" ∧
    dsA.split_dataset 3 "grouped" true (1 / 10) 42 =
      (dsA, .error (.unboundLocal "cv_splits")) :=
  ⟨by decide, by decide, by decide,
    split_dataset_unknown_mode dsA 3 true (1 / 10) 42 "grouped"
      (by decide) (by decide) (by decide)⟩

/-- C6: modes `"LCO"` and `"LDO"` fail fast with the `NotImplementedError`
of lines 103–108, and the dataset is returned unchanged (the raise happens
before the `cv_splits` assignment). -/
theorem split_dataset_lco_ldo (self : DrugResponseDataset) (k : Nat)
    (sv : Bool) ( vr : ℚ) (s : Nat) :
    self.split_dataset k "LCO" sv vr s =
      (self, .error (.notImplemented "LCO split mode not implemented")) ∧
    self.split_dataset k "LDO" sv vr s =
      (self, .error (.notImplemented "LDO split mode not implemented")) :=
  ⟨rfl, rfl⟩

/-- C7: every call of `randomize_features` with mode `"permutation"` fails
with the `UnboundLocalError` on `views` raised by line 149, before any
permutation of feature vectors can happen. -/
theorem randomize_features_permutation_unbound (self : FeatureDataset)
    (vs : List String) :
    self.randomize_features vs "permutation" = .error (.unboundLocal "views") :=
  rfl

/-- C8: every call of `randomize_features` with mode `"zeroing"` fails with
the `UnboundLocalError` on `views` raised by line 149, before the zeroing
branch (lines 177–182) can run. -/
theorem randomize_features_zeroing_unbound (self : FeatureDataset)
    (vs : List String) :
    self.randomize_features vs "zeroing" = .error (.unboundLocal "views") :=
  rfl

/-- C9 counterexample: on `fdMixed` (entity `"a"` lacks view `"v"`,
identifier `"b"` absent), `get_feature_matrix "v" ["a", "b"]` fails with
`MissingView`, not `MissingEntity`, although an identifier is absent; and on
an empty identifier list it fails (`np.stack` of an empty list) although
neither `MissingEntity` nor `MissingView` occurs. -/
theorem get_feature_matrix_cex :
    fdMixed.get_feature_matrix "v" ["a", "b"] =
      .error (.missingView "v") ∧
    fdMixed.features.lookup "b" = none ∧
    fdMixed.get_feature_matrix "w" [] = .error .stackEmpty :=
  ⟨rfl, rfl, rfl⟩

/-- C9 (amended): `get_feature_matrix` reports the error of the FIRST failing
identifier in sequence order — `MissingEntity` when that identifier is absent
from `features`, `MissingView` when it is present but lacks the view — and
when every identifier succeeds and the list is nonempty it returns the matrix
whose row `i` is the stored vector of identifier `i` for the view. -/
theorem get_feature_matrix_spec (fd : FeatureDataset) (view : String)
    (identifiers : List String) :
    (identifiers ≠ [] →
      (∀ i ∈ identifiers, hasRow fd.features view i = true) →
      fd.get_feature_matrix view identifiers =
        .ok (identifiers.map (rowOf fd.features view))) ∧
    (∀ pre x rest, identifiers = pre ++ x :: rest →
      (∀ i ∈ pre, hasRow fd.features view i = true) →
      fd.features.lookup x = none →
      fd.get_feature_matrix view identifiers = .error (.missingEntity x)) ∧
    (∀ pre x rest fm, identifiers = pre ++ x :: rest →
      (∀ i ∈ pre, hasRow fd.features view i = true) →
      fd.features.lookup x = some fm → fm.lookup view = none →
      fd.get_feature_matrix view identifiers = .error (.missingView view)) := by
  refine ⟨fun hne h => ?_, fun pre x rest heq hpre hx => ?_,
    fun pre x rest fm heq hpre hx hv => ?_⟩
  · rw [FeatureDataset.get_feature_matrix, gatherRows_ok _ _ _ h]
    cases identifiers with
    | nil => exact absurd rfl hne
    | cons a t => rfl
  · subst heq
    rw [FeatureDataset.get_feature_matrix, gatherRows_append _ _ _ hpre]
    unfold gatherRows
    simp only [hx]
  · subst heq
    rw [FeatureDataset.get_feature_matrix, gatherRows_append _ _ _ hpre]
    unfold gatherRows
    simp only [hx, hv]

/-- Witness for C9 (amended): the success clause evaluated on `fdOk`. -/
theorem get_feature_matrix_spec_w :
    (["a", "b"] : List String) ≠ [] ∧
    (∀ i ∈ (["a", "b"] : List String), hasRow fdOk.features "v" i = true) ∧
    fdOk.get_feature_matrix "v" ["a", "b"] = .ok [[1, 2], [3, 4]] :=
  ⟨by decide, by decide,
    (get_feature_matrix_spec fdOk "v" ["a", "b"]).1 (by decide) (by decide)⟩

/-- C10: constructing a `FeatureDataset` from an empty mapping fails (the
`IndexError` of `get_view_names` on position 0); from a nonempty mapping it
succeeds with `view_names` equal to the view keys of the first entity, consulting
no other entity; hence every successfully constructed dataset has at least
one entity. -/
theorem featureDataset_init_spec :
    (FeatureDataset.init [] = .error .indexError) ∧
    (∀ e fm rest, FeatureDataset.init ((e, fm) :: rest) =
      .ok { features := (e, fm) :: rest, view_names := fm.map Prod.fst,
            identifier := ((e, fm) :: rest).map Prod.fst }) ∧
    (∀ fs fd, FeatureDataset.init fs = .ok fd → fs ≠ []) := by
  refine ⟨rfl, fun e fm rest => rfl, fun fs fd h => ?_⟩
  cases fs with
  | nil => exact absurd h (by simp [FeatureDataset.init, get_view_names])
  | cons a t => simp

/-- Witness for C10: the nonempty-construction clause evaluated on a concrete
one-entity mapping. -/
theorem featureDataset_init_spec_w :
    ([("a", [("v", [(1 : ℚ)])])] : Features) ≠ [] :=
  featureDataset_init_spec.2.2 [("a", [("v", [1])])]
    { features := [("a", [("v", [1])])], view_names := ["v"], identifier := ["a"] }
    rfl

end Dreval
